import Mathlib

/-!
Verification development for the streaming example parser
(`src/shogun/io/streaming/InputParser.h`).

The parser is shallowly embedded as pure functions over an explicit state
record `PState`.  The stream source (`StreamingFile`) and the ring buffer
(`ParseBuffer`) are not among the staged sources, so those two collaborators
are modelled from the specification text; every definition that does so says
it in its doc comment.  Machine `int32_t` values are modelled as `Int`
(counters only ever start at 0 and increment, so no overflow is reached in
any statement below), booleans as `Bool`, pointers to feature-vector storage
as opaque `Nat` handles, and the `float64_t` label as an opaque `Int` value
that is only ever copied, never computed with.  Blocking waits are modelled
by `Option`-valued operations (`none` means the caller would block) and, for
the consumer loop, by an explicit fuel argument.  Condition-variable
signalling is modelled by a counter `notify_count` that each `notify_one`
increments.
-/

set_option autoImplicit false

deriving instance DecidableEq for Except

/-- An example record (`Example<T>` of the source): an opaque feature-vector
handle `fv`, its `length` (an `int32_t` in the source; negative lengths are
the end-of-stream sentinel) and a scalar `label`. -/
structure Example where
  fv : Nat
  length : Int
  label : Int
deriving DecidableEq, Repr, Inhabited

/-- Modelled from the spec: the slot states of the ring buffer (spec section 3,
"Slot": EMPTY, WRITING, READY, READING).  `ParseBuffer` is not among the
staged sources. -/
inductive SlotState where
  | EMPTY
  | WRITING
  | READY
  | READING
deriving DecidableEq, Repr, Inhabited

/-- Modelled from the spec: one cell of the ring, an example plus its state. -/
structure Slot where
  ex : Example
  state : SlotState
deriving DecidableEq, Repr, Inhabited

/-- Modelled from the spec: the bounded ring of slots with the two monotonic
cursors `write_idx` and `read_idx`; slots are addressed modulo the
capacity. -/
structure ParseBuffer where
  capacity : Nat
  slots : List Slot
  write_idx : Nat
  read_idx : Nat
deriving DecidableEq, Repr, Inhabited

/-- Modelled from the spec: ring construction, `capacity` slots all EMPTY and
both cursors at 0. -/
def ParseBuffer.initBuf (capacity : Nat) : ParseBuffer :=
  { capacity := capacity
  , slots := List.replicate capacity { ex := ⟨0, -1, -1⟩, state := .EMPTY }
  , write_idx := 0
  , read_idx := 0 }

/-- The slot a (logical, pre-modulo) cursor value addresses. -/
def ParseBuffer.slotAt (pb : ParseBuffer) (i : Nat) : Slot :=
  pb.slots.getD (i % pb.capacity) default

/-- Replace the slot a cursor value addresses. -/
def ParseBuffer.setSlot (pb : ParseBuffer) (i : Nat) (s : Slot) : ParseBuffer :=
  { pb with slots := pb.slots.set (i % pb.capacity) s }

/-- Modelled from the spec: `get_free_example` claims the slot at `write_idx`
for the producer, transitioning it EMPTY to WRITING; it waits while that slot
is not EMPTY, which the embedding renders as returning `none`. -/
def ParseBuffer.get_free_example (pb : ParseBuffer) : Option (Example × ParseBuffer) :=
  let s := pb.slotAt pb.write_idx
  if s.state = .EMPTY then
    some (s.ex, pb.setSlot pb.write_idx { s with state := .WRITING })
  else none

/-- Modelled from the spec: `copy_example` publishes the producer's slot,
stamping it READY and advancing `write_idx`. -/
def ParseBuffer.copy_example (pb : ParseBuffer) (ex : Example) : ParseBuffer :=
  let pb1 := pb.setSlot pb.write_idx { ex := ex, state := .READY }
  { pb1 with write_idx := pb.write_idx + 1 }

/-- Modelled from the spec: `get_unused_example` claims the slot at `read_idx`
for the consumer, transitioning it READY to READING; it waits while that slot
is not READY, rendered as returning `none`. -/
def ParseBuffer.get_unused_example (pb : ParseBuffer) : Option (Example × ParseBuffer) :=
  let s := pb.slotAt pb.read_idx
  if s.state = .READY then
    some (s.ex, pb.setSlot pb.read_idx { s with state := .READING })
  else none

/-- Modelled from the spec: `finalize_example` returns the consumer's slot to
EMPTY and advances `read_idx`; the `free_vector` policy bit only controls
storage release, which the state model does not track. -/
def ParseBuffer.finalize_example (pb : ParseBuffer) (_free_vector : Bool) : ParseBuffer :=
  let s := pb.slotAt pb.read_idx
  let pb1 := pb.setSlot pb.read_idx { s with state := .EMPTY }
  { pb1 with read_idx := pb.read_idx + 1 }

/-- Source enum `E_EXAMPLE_TYPE`: labelled or unlabelled stream. -/
inductive E_EXAMPLE_TYPE where
  | E_LABELLED
  | E_UNLABELLED
deriving DecidableEq, Repr, Inhabited

/-- The state of an `InputParser` object, together with the remaining stream
of the attached source (`input_source`), the spawn count of worker threads
and the count of condition-variable signals.  Field names follow the source
members. -/
structure PState where
  parsing_done : Bool
  reading_done : Bool
  example_type : E_EXAMPLE_TYPE
  input_source : List Example
  examples_ring : ParseBuffer
  number_of_vectors_parsed : Int
  number_of_vectors_read : Int
  free_after_release : Bool
  ring_size : Nat
  keep_running : Bool
  thread_joinable : Bool
  thread_spawns : Nat
  notify_count : Nat
deriving DecidableEq, Repr, Inhabited

/-- The constructor `InputParser::InputParser()`: ring null (modelled as an
empty ring), `parsing_done = reading_done = true`, `keep_running = false`.
Members the constructor leaves uninitialized get inert defaults; no claim
reads them before `init`. -/
def InputParser.new : PState :=
  { parsing_done := true
  , reading_done := true
  , example_type := .E_LABELLED
  , input_source := []
  , examples_ring := ParseBuffer.initBuf 0
  , number_of_vectors_parsed := 0
  , number_of_vectors_read := 0
  , free_after_release := true
  , ring_size := 0
  , keep_running := false
  , thread_joinable := false
  , thread_spawns := 0
  , notify_count := 0 }

/-- Method `InputParser::init`: attach the source, select the example type, allocate
a fresh ring of `size` slots, clear both done flags and both counters, and
reset `free_after_release` to true. -/
def InputParser.init (st : PState) (input_file : List Example)
    (is_labelled : Bool) (size : Nat) : PState :=
  { st with
    input_source := input_file
  , example_type := if is_labelled then .E_LABELLED else .E_UNLABELLED
  , examples_ring := ParseBuffer.initBuf size
  , parsing_done := false
  , reading_done := false
  , number_of_vectors_parsed := 0
  , number_of_vectors_read := 0
  , free_after_release := true
  , ring_size := size }

/-- Method `InputParser::set_free_vector_after_release`. -/
def set_free_vector_after_release (st : PState) (free_vec : Bool) : PState :=
  { st with free_after_release := free_vec }

/-- Method `InputParser::is_running`: the nested conditional of the source, which
yields true only when `parsing_done` holds and `reading_done` does not. -/
def is_running (st : PState) : Bool :=
  if st.parsing_done then
    if st.reading_done then false else true
  else false

/-- Method `InputParser::start_parser` (the Lean name drops the underscore): raise
an error when `is_running()`, otherwise set `keep_running` and spawn the
worker thread, which makes the thread handle joinable. -/
def startParser (st : PState) : Except Unit PState :=
  if is_running st then .error ()
  else .ok { st with
    keep_running := true
  , thread_joinable := true
  , thread_spawns := st.thread_spawns + 1 }

/-- Modelled from the spec: the stream-source adapter's read operation
(`StreamingFile` is not among the staged sources).  Reading consumes the
head record of the remaining stream; an exhausted source reports
end-of-stream by a negative length, per the adapter contract. -/
def read_from_source : List Example → Example × List Example
  | [] => (⟨0, -1, -1⟩, [])
  | r :: t => (r, t)

/-- Method `InputParser::get_vector_and_label`: invoke the configured labelled read
operation; report 0 when the returned `length < 1`, else 1. -/
def get_vector_and_label (st : PState) : Int × Example × PState :=
  let p := read_from_source st.input_source
  ((if p.1.length < 1 then 0 else 1), p.1, { st with input_source := p.2 })

/-- Method `InputParser::get_vector_only`: invoke the configured unlabelled read
operation (it sets only the vector and the length); report 0 when the
returned `length < 1`, else 1. -/
def get_vector_only (st : PState) : Int × Nat × Int × PState :=
  let p := read_from_source st.input_source
  ((if p.1.length < 1 then 0 else 1), p.1.fv, p.1.length, { st with input_source := p.2 })

/-- Outcome of one iteration of the worker's while loop. -/
inductive IterResult where
  /-- The loop terminated (a `return NULL` or the while condition failed). -/
  | exited (st : PState)
  /-- The loop body ran to its end and the loop re-checks its condition. -/
  | continued (st : PState)
  /-- The iteration is blocked inside `get_free_example` (ring full). -/
  | blockedFull (st : PState)
deriving DecidableEq, Repr

/-- Tail of a worker iteration after the read returned `(fv, len, lbl)`:
`current_len < 0` ends parsing under the lock with a signal; otherwise the
slot is published via `copy_example` and `number_of_vectors_parsed` is
incremented under the lock with a signal.  Note the result of
`get_vector_and_label` / `get_vector_only` is not consulted: only the sign
of the length decides. -/
def main_parse_loop_tail (st : PState) (fv : Nat) (len lbl : Int) : IterResult :=
  if len < 0 then
    .exited { st with parsing_done := true, notify_count := st.notify_count + 1 }
  else
    .continued { st with
      examples_ring := ParseBuffer.copy_example st.examples_ring ⟨fv, len, lbl⟩
    , number_of_vectors_parsed := st.number_of_vectors_parsed + 1
    , notify_count := st.notify_count + 1 }

/-- Middle of a worker iteration: perform the configured read into the
current slot's fields.  With an unlabelled stream the label keeps the value
found in the claimed slot (`current_label` is loaded from the slot and
written back untouched). -/
def main_parse_loop_read (st : PState) (slotEx : Example) : IterResult :=
  match st.example_type with
  | .E_LABELLED =>
    let r := get_vector_and_label st
    main_parse_loop_tail r.2.2 r.2.1.fv r.2.1.length r.2.1.label
  | .E_UNLABELLED =>
    let r := get_vector_only st
    main_parse_loop_tail r.2.2.2 r.2.1 r.2.2.1 slotEx.label

/-- One iteration of `InputParser::main_parse_loop`: exit when
`keep_running` is false or (under the lock) `parsing_done` is set; else
claim a free slot and read into it. -/
def main_parse_loop_iter (st : PState) : IterResult :=
  if st.keep_running then
    if st.parsing_done then .exited st
    else
      match ParseBuffer.get_free_example st.examples_ring with
      | none => .blockedFull st
      | some (slotEx, ring1) =>
        main_parse_loop_read { st with examples_ring := ring1 } slotEx
  else .exited st

/-- Method `InputParser::retrieve_example` (runs under the controller lock):
when `parsing_done` and the counters agree, set `reading_done`, signal and
return null; with nothing parsed yet or the counters equal, return null;
otherwise claim the next ready slot and increment
`number_of_vectors_read`.  The source increments the counter after the
`get_unused_example` call whatever it returned; the waiting (`none`) branch
is unreachable in runs that respect the consumer protocol. -/
def retrieve_example (st : PState) : Option Example × PState :=
  if st.parsing_done ∧ st.number_of_vectors_read = st.number_of_vectors_parsed then
    (none, { st with reading_done := true, notify_count := st.notify_count + 1 })
  else if st.number_of_vectors_parsed ≤ 0 then (none, st)
  else if st.number_of_vectors_read = st.number_of_vectors_parsed then (none, st)
  else
    match ParseBuffer.get_unused_example st.examples_ring with
    | some (ex, ring') =>
      (some ex, { st with
        examples_ring := ring'
      , number_of_vectors_read := st.number_of_vectors_read + 1 })
    | none =>
      (none, { st with number_of_vectors_read := st.number_of_vectors_read + 1 })

/-- Outcome of the labelled `get_next_example`: a return value together with
the values written into the out parameters (`none` = the out parameter is
left untouched), or undefined behaviour (the post-loop dereference of an
`ex` that no `break` initialized), or still waiting after the fuel ran out. -/
inductive GNEOutcome where
  | ret (code : Int) (fv : Option Nat) (len : Option Int) (lbl : Option Int) (st : PState)
  | undefinedBehavior (st : PState)
  | waiting (st : PState)
deriving DecidableEq, Repr

/-- The while loop of the labelled `get_next_example`, with the local `ex`
threaded through (it is uninitialized at entry, modelled as `none`).
Leaving the loop because `keep_running` is false reaches the trailing
`fv = ex->fv; ...; return 1` statements: with `ex` never assigned by a
`break`, that dereference is undefined behaviour.  A condition-variable
wait consumes one unit of fuel and re-enters the loop with `ex` holding
the null result of the preceding `retrieve_example`. -/
def get_next_example_loop : Nat → PState → Option Example → GNEOutcome
  | 0, st, _ => .waiting st
  | fuel + 1, st, ex =>
    if st.keep_running then
      if st.reading_done then .ret 0 none none none st
      else
        match retrieve_example st with
        | (none, st') =>
          if st'.reading_done then .ret 0 none none none st'
          else get_next_example_loop fuel st' none
        | (some e, st') => .ret 1 (some e.fv) (some e.length) (some e.label) st'
    else
      match ex with
      | none => .undefinedBehavior st
      | some e => .ret 1 (some e.fv) (some e.length) (some e.label) st

/-- The labelled, three-output `InputParser::get_next_example`. -/
def get_next_example (fuel : Nat) (st : PState) : GNEOutcome :=
  get_next_example_loop fuel st none

/-- Outcome of the unlabelled `get_next_example`: no label output. -/
inductive GNEOutcome2 where
  | ret (code : Int) (fv : Option Nat) (len : Option Int) (st : PState)
  | undefinedBehavior (st : PState)
  | waiting (st : PState)
deriving DecidableEq, Repr

/-- Discard the label output of a labelled outcome. -/
def drop_label : GNEOutcome → GNEOutcome2
  | .ret code fv len _ st => .ret code fv len st
  | .undefinedBehavior st => .undefinedBehavior st
  | .waiting st => .waiting st

/-- The unlabelled, two-output `InputParser::get_next_example`: it declares a
dummy label and delegates to the labelled overload, so its outcome is the
labelled outcome with the label write discarded (it lands in the dummy). -/
def get_next_example_nolabel (fuel : Nat) (st : PState) : GNEOutcome2 :=
  drop_label (get_next_example fuel st)

/-- Method `InputParser::finalize_example`: delegate to the ring with the
`free_after_release` policy bit. -/
def finalize_example (st : PState) : PState :=
  { st with examples_ring :=
      ParseBuffer.finalize_example st.examples_ring st.free_after_release }

/-- Method `InputParser::end_parser` (the Lean name drops the underscore): join the
worker thread only when the handle is joinable; joining consumes the
handle and touches nothing else. -/
def endParser (st : PState) : PState :=
  if st.thread_joinable then { st with thread_joinable := false } else st

/-- Method `InputParser::exit_parser` (the Lean name drops the underscore): clear
`keep_running`, signal the state condition, then join the worker thread when
the handle is joinable. -/
def exitParser (st : PState) : PState :=
  let st1 : PState :=
    { st with keep_running := false, notify_count := st.notify_count + 1 }
  if st1.thread_joinable then { st1 with thread_joinable := false } else st1

/-- The operations a run may interleave after `init`: starting the worker,
one worker-loop iteration (running or exiting), the consumer's
`retrieve_example` (the state-changing heart of `get_next_example`),
`finalize_example`, the release-policy setter, `exit_parser` and
`end_parser`. -/
inductive Step : PState → PState → Prop where
  | start {st st' : PState} : startParser st = .ok st' → Step st st'
  | worker_run {st st' : PState} : main_parse_loop_iter st = .continued st' → Step st st'
  | worker_exit {st st' : PState} : main_parse_loop_iter st = .exited st' → Step st st'
  | retrieve {st : PState} : Step st (retrieve_example st).2
  | fin {st : PState} : Step st (finalize_example st)
  | set_free {st : PState} {b : Bool} : Step st (set_free_vector_after_release st b)
  | cancel {st : PState} : Step st (exitParser st)
  | ending {st : PState} : Step st (endParser st)

/-- States a run over source stream `s0` (labelled flag `lab`, ring size
`size`) can reach: the freshly initialized parser, closed under `Step`. -/
inductive Reachable (s0 : List Example) (lab : Bool) (size : Nat) : PState → Prop where
  | base : Reachable s0 lab size (InputParser.init InputParser.new s0 lab size)
  | step {st st' : PState} :
      Reachable s0 lab size st → Step st st' → Reachable s0 lab size st'

/-- The number of examples the source produces: the records before the first
negative-length (end-of-stream) record.  Zero-length records are produced
(and, by the code, published). -/
def Nsource (s : List Example) : Int :=
  ((s.takeWhile fun r => decide (0 ≤ r.length)).length : Int)

/-- The number of examples the source produces is never negative. -/
theorem Nsource_nonneg (s : List Example) : 0 ≤ Nsource s :=
  Int.natCast_nonneg _

/-- Unfolding of a successful `get_free_example`: the claimed slot was EMPTY,
the returned payload is its example, and the only change is the WRITING mark;
the write cursor does not move. -/
theorem get_free_example_some {pb : ParseBuffer} {ex : Example} {pb' : ParseBuffer}
    (h : ParseBuffer.get_free_example pb = some (ex, pb')) :
    (pb.slotAt pb.write_idx).state = .EMPTY ∧
    ex = (pb.slotAt pb.write_idx).ex ∧
    pb' = pb.setSlot pb.write_idx { pb.slotAt pb.write_idx with state := .WRITING } ∧
    pb'.write_idx = pb.write_idx := by
  by_cases hs : (pb.slotAt pb.write_idx).state = .EMPTY
  · simp only [ParseBuffer.get_free_example, hs, if_true, Option.some.injEq,
      Prod.mk.injEq] at h
    refine ⟨hs, h.1.symm, h.2.symm, ?_⟩
    rw [← h.2]
    rfl
  · simp [ParseBuffer.get_free_example, hs] at h

/-- Unfolding of a successful `get_unused_example`: the claimed slot was
READY, the returned payload is its example, and the only change is the
READING mark. -/
theorem get_unused_example_some {pb : ParseBuffer} {ex : Example} {pb' : ParseBuffer}
    (h : ParseBuffer.get_unused_example pb = some (ex, pb')) :
    (pb.slotAt pb.read_idx).state = .READY ∧
    ex = (pb.slotAt pb.read_idx).ex ∧
    pb' = pb.setSlot pb.read_idx { pb.slotAt pb.read_idx with state := .READING } := by
  by_cases hs : (pb.slotAt pb.read_idx).state = .READY
  · simp only [ParseBuffer.get_unused_example, hs, if_true, Option.some.injEq,
      Prod.mk.injEq] at h
    exact ⟨hs, h.1.symm, h.2.symm⟩
  · simp [ParseBuffer.get_unused_example, hs] at h

/-- Complete case analysis of `retrieve_example`, mirroring the four-way
branch structure of the source. -/
theorem retrieve_cases (st : PState) :
    (st.parsing_done = true ∧
      st.number_of_vectors_read = st.number_of_vectors_parsed ∧
      retrieve_example st =
        (none, { st with reading_done := true, notify_count := st.notify_count + 1 })) ∨
    (¬(st.parsing_done = true ∧
        st.number_of_vectors_read = st.number_of_vectors_parsed) ∧
      st.number_of_vectors_parsed ≤ 0 ∧ retrieve_example st = (none, st)) ∨
    (¬(st.parsing_done = true ∧
        st.number_of_vectors_read = st.number_of_vectors_parsed) ∧
      ¬ st.number_of_vectors_parsed ≤ 0 ∧
      st.number_of_vectors_read = st.number_of_vectors_parsed ∧
      retrieve_example st = (none, st)) ∨
    (¬(st.parsing_done = true ∧
        st.number_of_vectors_read = st.number_of_vectors_parsed) ∧
      ¬ st.number_of_vectors_parsed ≤ 0 ∧
      st.number_of_vectors_read ≠ st.number_of_vectors_parsed ∧
      ((∃ ex ring',
          ParseBuffer.get_unused_example st.examples_ring = some (ex, ring') ∧
          retrieve_example st =
            (some ex, { st with examples_ring := ring',
                                number_of_vectors_read := st.number_of_vectors_read + 1 })) ∨
        (ParseBuffer.get_unused_example st.examples_ring = none ∧
          retrieve_example st =
            (none, { st with
                     number_of_vectors_read := st.number_of_vectors_read + 1 })))) := by
  by_cases hc : st.parsing_done = true ∧
      st.number_of_vectors_read = st.number_of_vectors_parsed
  · exact Or.inl ⟨hc.1, hc.2, by simp [retrieve_example, hc.1, hc.2]⟩
  · by_cases hz : st.number_of_vectors_parsed ≤ 0
    · exact Or.inr (Or.inl ⟨hc, hz, by simp [retrieve_example, hc, hz]⟩)
    · by_cases he : st.number_of_vectors_read = st.number_of_vectors_parsed
      · have hp : ¬ st.parsing_done = true := fun h => hc ⟨h, he⟩
        exact Or.inr (Or.inr (Or.inl ⟨hc, hz, he, by simp [retrieve_example, hp, hz, he]⟩))
      · refine Or.inr (Or.inr (Or.inr ⟨hc, hz, he, ?_⟩))
        cases hu : ParseBuffer.get_unused_example st.examples_ring with
        | none => exact Or.inr ⟨rfl, by simp [retrieve_example, hc, hz, he, hu]⟩
        | some pr =>
          exact Or.inl ⟨pr.1, pr.2, by simp [hu],
            by simp [retrieve_example, hc, hz, he, hu]⟩

/-- A worker iteration that continues consumed exactly one nonnegative-length
record, published it, and incremented the parsed counter; no flag moved. -/
theorem iter_continued_inv {st st' : PState}
    (h : main_parse_loop_iter st = .continued st') :
    st.keep_running = true ∧ st.parsing_done = false ∧
    ∃ r t, st.input_source = r :: t ∧ 0 ≤ r.length ∧
      st'.input_source = t ∧
      st'.number_of_vectors_parsed = st.number_of_vectors_parsed + 1 ∧
      st'.number_of_vectors_read = st.number_of_vectors_read ∧
      st'.parsing_done = false ∧
      st'.reading_done = st.reading_done ∧
      st'.keep_running = st.keep_running := by
  by_cases hk : st.keep_running = true
  case neg => simp [main_parse_loop_iter, hk] at h
  by_cases hp : st.parsing_done = true
  · simp [main_parse_loop_iter, hk, hp] at h
  · refine ⟨hk, by simpa using hp, ?_⟩
    cases hfree : ParseBuffer.get_free_example st.examples_ring with
    | none => simp [main_parse_loop_iter, hk, hp, hfree] at h
    | some pr =>
      simp [main_parse_loop_iter, hk, hp, hfree] at h
      cases hty : st.example_type with
      | E_LABELLED =>
        simp only [main_parse_loop_read, hty] at h
        cases hsrc : st.input_source with
        | nil =>
          simp [get_vector_and_label, read_from_source, hsrc, main_parse_loop_tail] at h
        | cons r t =>
          by_cases hlen : r.length < 0
          · simp [get_vector_and_label, read_from_source, hsrc,
              main_parse_loop_tail, hlen] at h
          · refine ⟨r, t, rfl, Int.not_lt.mp hlen, ?_⟩
            simp only [get_vector_and_label, read_from_source, hsrc,
              main_parse_loop_tail, hlen, if_false, IterResult.continued.injEq] at h
            subst h
            simp [hk]
      | E_UNLABELLED =>
        simp only [main_parse_loop_read, hty] at h
        cases hsrc : st.input_source with
        | nil =>
          simp [get_vector_only, read_from_source, hsrc, main_parse_loop_tail] at h
        | cons r t =>
          by_cases hlen : r.length < 0
          · simp [get_vector_only, read_from_source, hsrc,
              main_parse_loop_tail, hlen] at h
          · refine ⟨r, t, rfl, Int.not_lt.mp hlen, ?_⟩
            simp only [get_vector_only, read_from_source, hsrc,
              main_parse_loop_tail, hlen, if_false, IterResult.continued.injEq] at h
            subst h
            simp [hk]

/-- A worker iteration that exits either found nothing to do (`keep_running`
cleared or `parsing_done` already set: the state is untouched) or hit
end-of-stream: the read length was negative and the only effects are the
claim mark on the free slot, the consumed record, `parsing_done := true` and
one signal. -/
theorem iter_exited_inv {st st' : PState}
    (h : main_parse_loop_iter st = .exited st') :
    st' = st ∨
    (st.keep_running = true ∧ st.parsing_done = false ∧
      (read_from_source st.input_source).1.length < 0 ∧
      ∃ slotEx ring1,
        ParseBuffer.get_free_example st.examples_ring = some (slotEx, ring1) ∧
        st' = { st with examples_ring := ring1
                      , input_source := (read_from_source st.input_source).2
                      , parsing_done := true
                      , notify_count := st.notify_count + 1 }) := by
  by_cases hk : st.keep_running = true
  case neg =>
    left
    simp [main_parse_loop_iter, hk] at h
    exact h.symm
  by_cases hp : st.parsing_done = true
  · left
    simp [main_parse_loop_iter, hk, hp] at h
    exact h.symm
  · cases hfree : ParseBuffer.get_free_example st.examples_ring with
    | none => simp [main_parse_loop_iter, hk, hp, hfree] at h
    | some pr =>
      simp [main_parse_loop_iter, hk, hp, hfree] at h
      right
      refine ⟨hk, by simpa using hp, ?_⟩
      cases hty : st.example_type with
      | E_LABELLED =>
        simp only [main_parse_loop_read, hty] at h
        cases hsrc : st.input_source with
        | nil =>
          simp only [get_vector_and_label, read_from_source, hsrc,
            main_parse_loop_tail] at h
          norm_num at h
          refine ⟨by norm_num [read_from_source, hsrc], pr.1, pr.2, by simp [hfree], ?_⟩
          rw [← h]
          simp [read_from_source, hsrc, hk]
        | cons r t =>
          by_cases hlen : r.length < 0
          · simp only [get_vector_and_label, read_from_source, hsrc,
              main_parse_loop_tail, hlen, if_true, IterResult.exited.injEq] at h
            refine ⟨by simpa [read_from_source, hsrc] using hlen, pr.1, pr.2,
              by simp [hfree], ?_⟩
            rw [← h]
            simp [read_from_source, hsrc, hk]
          · simp [get_vector_and_label, read_from_source, hsrc,
              main_parse_loop_tail, hlen] at h
      | E_UNLABELLED =>
        simp only [main_parse_loop_read, hty] at h
        cases hsrc : st.input_source with
        | nil =>
          simp only [get_vector_only, read_from_source, hsrc,
            main_parse_loop_tail] at h
          norm_num at h
          refine ⟨by norm_num [read_from_source, hsrc], pr.1, pr.2, by simp [hfree], ?_⟩
          rw [← h]
          simp [read_from_source, hsrc, hk]
        | cons r t =>
          by_cases hlen : r.length < 0
          · simp only [get_vector_only, read_from_source, hsrc,
              main_parse_loop_tail, hlen, if_true, IterResult.exited.injEq] at h
            refine ⟨by simpa [read_from_source, hsrc] using hlen, pr.1, pr.2,
              by simp [hfree], ?_⟩
            rw [← h]
            simp [read_from_source, hsrc, hk]
          · simp [get_vector_only, read_from_source, hsrc,
              main_parse_loop_tail, hlen] at h

/-- Unfolding of a successful `startParser`: the guard saw `is_running`
false, and the effects are the `keep_running` flag and the freshly spawned,
joinable worker. -/
theorem startParser_ok {st st' : PState} (h : startParser st = .ok st') :
    is_running st = false ∧
    st' = { st with keep_running := true, thread_joinable := true,
                    thread_spawns := st.thread_spawns + 1 } := by
  by_cases hr : is_running st = true
  · simp [startParser, hr] at h
  · simp only [Bool.not_eq_true] at hr
    refine ⟨hr, ?_⟩
    simp [startParser, hr] at h
    exact h.symm

/-- The counter invariant of a run over source `s0`: both counters are
nonnegative, reads never outrun parses, parses never outrun the source, and
while parsing is still live the parsed counter plus the publishable records
of the remaining stream account for the whole source. -/
def CounterInv (s0 : List Example) (st : PState) : Prop :=
  0 ≤ st.number_of_vectors_read ∧
  st.number_of_vectors_read ≤ st.number_of_vectors_parsed ∧
  st.number_of_vectors_parsed ≤ Nsource s0 ∧
  (st.parsing_done = false →
    st.number_of_vectors_parsed
      + ((st.input_source.takeWhile fun r => decide (0 ≤ r.length)).length : Int)
      = Nsource s0)

/-- Operation `exitParser` only clears `keep_running`, signals once and possibly joins
the worker. -/
theorem exitParser_cases (st : PState) :
    exitParser st =
      { st with keep_running := false, notify_count := st.notify_count + 1 } ∨
    exitParser st =
      { st with keep_running := false, notify_count := st.notify_count + 1,
                thread_joinable := false } := by
  by_cases hj : st.thread_joinable = true
  · right; simp [exitParser, hj]
  · left; simp [exitParser, hj]

/-- Operation `endParser` either does nothing or only consumes the thread handle. -/
theorem endParser_cases (st : PState) :
    endParser st = st ∨ endParser st = { st with thread_joinable := false } := by
  by_cases hj : st.thread_joinable = true
  · right; simp [endParser, hj]
  · left; simp [endParser, hj]

/-- One step preserves the counter invariant. -/
theorem counterInv_step {s0 : List Example} {st st' : PState}
    (hstep : Step st st') (ih : CounterInv s0 st) : CounterInv s0 st' := by
  obtain ⟨i1, i2, i3, i4⟩ := ih
  cases hstep with
  | start h' =>
    obtain ⟨-, rfl⟩ := startParser_ok h'
    exact ⟨i1, i2, i3, i4⟩
  | worker_run h' =>
    obtain ⟨hk, hpf, r, t, hsrc, hrlen, hsrc', hpar, hread, hpd', hrd, hkr⟩ :=
      iter_continued_inv h'
    have hN := i4 hpf
    rw [hsrc, List.takeWhile_cons_of_pos (by simpa using hrlen)] at hN
    simp only [List.length_cons] at hN
    refine ⟨hread ▸ i1, ?_, ?_, ?_⟩
    · rw [hread, hpar]; omega
    · rw [hpar]; omega
    · intro _
      rw [hpar, hsrc']
      omega
  | worker_exit h' =>
    rcases iter_exited_inv h' with rfl | ⟨hk, hpf, hlen, slotEx, ring1, hfree, rfl⟩
    · exact ⟨i1, i2, i3, i4⟩
    · exact ⟨i1, i2, i3, by intro hfalse; simp at hfalse⟩
  | retrieve =>
    rcases retrieve_cases st with ⟨hp, he, heq⟩ | ⟨hc, hz, heq⟩ |
      ⟨hc, hz, he, heq⟩ | ⟨hc, hz, hne, ⟨ex, ring', hu, heq⟩ | ⟨hu, heq⟩⟩ <;>
      rw [heq]
    · exact ⟨i1, i2, i3, fun hx => i4 hx⟩
    · exact ⟨i1, i2, i3, i4⟩
    · exact ⟨i1, i2, i3, i4⟩
    · exact ⟨by dsimp only; omega, by dsimp only; omega,
        by dsimp only; exact i3, by dsimp only; exact i4⟩
    · exact ⟨by dsimp only; omega, by dsimp only; omega,
        by dsimp only; exact i3, by dsimp only; exact i4⟩
  | fin => exact ⟨i1, i2, i3, i4⟩
  | set_free => exact ⟨i1, i2, i3, i4⟩
  | cancel =>
    rcases exitParser_cases st with h | h <;> rw [h] <;> exact ⟨i1, i2, i3, i4⟩
  | ending =>
    rcases endParser_cases st with h | h <;> rw [h] <;> exact ⟨i1, i2, i3, i4⟩

/-- Every reachable state satisfies the counter invariant. -/
theorem reachable_counterInv {s0 : List Example} {lab : Bool} {size : Nat}
    {st : PState} (h : Reachable s0 lab size st) : CounterInv s0 st := by
  induction h with
  | base =>
    refine ⟨le_refl 0, le_refl 0, ?_, ?_⟩
    · simpa [InputParser.init] using Nsource_nonneg s0
    · intro _
      simp [InputParser.init, Nsource]
  | step hprev hstep ih => exact counterInv_step hstep ih

/-- No step decreases a counter, and `reading_done` is only ever set — never
cleared — and only upon the drain observation inside `retrieve_example`. -/
theorem step_effects {st st' : PState} (h : Step st st') :
    st.number_of_vectors_parsed ≤ st'.number_of_vectors_parsed ∧
    st.number_of_vectors_read ≤ st'.number_of_vectors_read ∧
    (st'.reading_done = st.reading_done ∨
      (st.parsing_done = true ∧
       st.number_of_vectors_read = st.number_of_vectors_parsed ∧
       st'.reading_done = true)) := by
  cases h with
  | start h' =>
    obtain ⟨-, rfl⟩ := startParser_ok h'
    exact ⟨le_refl _, le_refl _, Or.inl rfl⟩
  | worker_run h' =>
    obtain ⟨hk, hpf, r, t, hsrc, hrlen, hsrc', hpar, hread, hpd', hrd, hkr⟩ :=
      iter_continued_inv h'
    exact ⟨by omega, by omega, Or.inl hrd⟩
  | worker_exit h' =>
    rcases iter_exited_inv h' with rfl | ⟨hk, hpf, hlen, slotEx, ring1, hfree, rfl⟩
    · exact ⟨le_refl _, le_refl _, Or.inl rfl⟩
    · exact ⟨le_refl _, le_refl _, Or.inl rfl⟩
  | retrieve =>
    rcases retrieve_cases st with ⟨hp, he, heq⟩ | ⟨hc, hz, heq⟩ |
      ⟨hc, hz, he, heq⟩ | ⟨hc, hz, hne, ⟨ex, ring', hu, heq⟩ | ⟨hu, heq⟩⟩ <;> rw [heq]
    · exact ⟨le_refl _, le_refl _, Or.inr ⟨hp, he, rfl⟩⟩
    · exact ⟨le_refl _, le_refl _, Or.inl rfl⟩
    · exact ⟨le_refl _, le_refl _, Or.inl rfl⟩
    · exact ⟨by dsimp only; omega, by dsimp only; omega, Or.inl rfl⟩
    · exact ⟨by dsimp only; omega, by dsimp only; omega, Or.inl rfl⟩
  | fin => exact ⟨le_refl _, le_refl _, Or.inl rfl⟩
  | set_free => exact ⟨le_refl _, le_refl _, Or.inl rfl⟩
  | cancel =>
    rcases exitParser_cases st with h | h <;> rw [h] <;>
      exact ⟨le_refl _, le_refl _, Or.inl rfl⟩
  | ending =>
    rcases endParser_cases st with h | h <;> rw [h] <;>
      exact ⟨le_refl _, le_refl _, Or.inl rfl⟩

/-- Flag `reading_done` after `retrieve_example`: it is set exactly when the
drain condition is observed, and otherwise unchanged. -/
theorem retrieve_reading_done (st : PState) :
    (retrieve_example st).2.reading_done =
      (st.reading_done || (st.parsing_done &&
        decide (st.number_of_vectors_read = st.number_of_vectors_parsed))) := by
  rcases retrieve_cases st with ⟨hp, he, heq⟩ | ⟨hc, hz, heq⟩ |
    ⟨hc, hz, he, heq⟩ | ⟨hc, hz, hne, ⟨ex, ring', hu, heq⟩ | ⟨hu, heq⟩⟩ <;> rw [heq]
  · simp [hp, he]
  · dsimp only
    by_cases hp : st.parsing_done = true
    · have hne : ¬ st.number_of_vectors_read = st.number_of_vectors_parsed :=
        fun he => hc ⟨hp, he⟩
      simp [hne]
    · simp only [Bool.not_eq_true] at hp
      simp [hp]
  · have hpf : st.parsing_done = false := by
      cases hb : st.parsing_done
      · rfl
      · exact absurd ⟨hb, he⟩ hc
    simp [hpf]
  · dsimp only
    simp [hne]
  · dsimp only
    simp [hne]

/-- A one-record labelled stream for the concrete checks. -/
def demoStream : List Example := [⟨1, 2, 3⟩]

/-- The freshly initialized parser over `demoStream`. -/
def demoInit : PState := InputParser.init InputParser.new demoStream true 2

/-- State `demoInit` right after `start_parser`: the worker is live. -/
def demoLive : PState :=
  { demoInit with keep_running := true, thread_joinable := true, thread_spawns := 1 }

/-- State `demoLive` with parsing finished and every parsed example consumed
(here: none were parsed). -/
def demoDrained : PState := { demoLive with parsing_done := true }

/-- Claim C1: `retrieve_example` under the controller lock: with parsing done
and the counters equal it sets `reading_done`, signals and returns none; with
nothing parsed or the counters equal it returns none and changes nothing;
otherwise it claims the next ready slot, increments the read counter and
returns the slot.  `reading_done` flips to true exactly at the first
observation of the drain condition: the call leaves it at
`reading_done OR (parsing_done AND read = parsed)`, and no operation of a run
ever changes it otherwise or clears it. -/
theorem retrieve_example_contract (st : PState)
    (h0 : 0 ≤ st.number_of_vectors_read)
    (h1 : st.number_of_vectors_read ≤ st.number_of_vectors_parsed) :
    (st.parsing_done = true →
      st.number_of_vectors_read = st.number_of_vectors_parsed →
      retrieve_example st =
        (none, { st with reading_done := true, notify_count := st.notify_count + 1 })) ∧
    (¬(st.parsing_done = true ∧
        st.number_of_vectors_read = st.number_of_vectors_parsed) →
      (st.number_of_vectors_parsed = 0 ∨
        st.number_of_vectors_read = st.number_of_vectors_parsed) →
      retrieve_example st = (none, st)) ∧
    (∀ ex ring',
      ¬(st.parsing_done = true ∧
          st.number_of_vectors_read = st.number_of_vectors_parsed) →
      st.number_of_vectors_parsed ≠ 0 →
      st.number_of_vectors_read ≠ st.number_of_vectors_parsed →
      ParseBuffer.get_unused_example st.examples_ring = some (ex, ring') →
      retrieve_example st =
        (some ex, { st with examples_ring := ring',
                            number_of_vectors_read := st.number_of_vectors_read + 1 })) ∧
    ((retrieve_example st).2.reading_done =
      (st.reading_done || (st.parsing_done &&
        decide (st.number_of_vectors_read = st.number_of_vectors_parsed)))) ∧
    (∀ st', Step st st' →
      st'.reading_done = st.reading_done ∨
      (st.parsing_done = true ∧
        st.number_of_vectors_read = st.number_of_vectors_parsed ∧
        st'.reading_done = true)) := by
  refine ⟨?_, ?_, ?_, retrieve_reading_done st,
    fun st' hs => (step_effects hs).2.2⟩
  · intro hp he
    simp [retrieve_example, hp, he]
  · intro hc hd
    rcases hd with hd | hd
    · have hz : st.number_of_vectors_parsed ≤ 0 := le_of_eq hd
      simp [retrieve_example, hc, hz]
    · by_cases hz : st.number_of_vectors_parsed ≤ 0
      · simp [retrieve_example, hc, hz]
      · have hpf : st.parsing_done = false := by
          cases hb : st.parsing_done
          · rfl
          · exact absurd ⟨hb, hd⟩ hc
        simp [retrieve_example, hpf, hz, hd]
  · intro ex ring' hc hnz hne hu
    have hz : ¬ st.number_of_vectors_parsed ≤ 0 := by omega
    simp [retrieve_example, hc, hz, hne, hu]

/-- Witness for C1: at a drained parser the call flips `reading_done`,
signals once and returns none. -/
theorem retrieve_example_contract_witness :
    retrieve_example demoDrained =
      (none, { demoDrained with reading_done := true,
                                notify_count := demoDrained.notify_count + 1 }) :=
  (retrieve_example_contract demoDrained (by decide) (by decide)).1 (by decide) (by decide)

/-- Claim C2 counterexample: the freshly initialized parser is reachable and
has parsing not done, yet `is_running` returns false — the claimed
equivalence fails while parsing is in progress. -/
theorem is_running_claim_counterexample :
    Reachable demoStream true 2 demoInit ∧
    demoInit.parsing_done = false ∧
    is_running demoInit = false :=
  ⟨Reachable.base, by decide, by decide⟩

/-- Claim C2 (amended): `is_running` returns true iff parsing is done and
reading is not — the legacy drain-phase test of the source; it returns false
while parsing is still in progress. -/
theorem is_running_iff (st : PState) :
    is_running st = (st.parsing_done && !st.reading_done) := by
  cases hp : st.parsing_done <;> cases hr : st.reading_done <;>
    simp [is_running, hp, hr]

/-- A labelled stream whose single record has length zero. -/
def zeroLenStream : List Example := [⟨1, 0, 5⟩]

/-- The freshly initialized parser over `zeroLenStream`. -/
def zeroLenInit : PState := InputParser.init InputParser.new zeroLenStream true 2

/-- State `zeroLenInit` right after `start_parser`. -/
def zeroLenLive : PState :=
  { zeroLenInit with keep_running := true, thread_joinable := true, thread_spawns := 1 }

/-- The ring of `zeroLenLive` after the worker claims its free slot. -/
def zeroLenRing1 : ParseBuffer :=
  { capacity := 2
  , slots := [ { ex := ⟨0, -1, -1⟩, state := .WRITING }
             , { ex := ⟨0, -1, -1⟩, state := .EMPTY } ]
  , write_idx := 0
  , read_idx := 0 }

/-- State `zeroLenLive` after one worker iteration: the zero-length record has been
published and counted. -/
def zeroLenPost : PState :=
  { zeroLenLive with
    input_source := []
  , examples_ring :=
      { capacity := 2
      , slots := [ { ex := ⟨1, 0, 5⟩, state := .READY }
                 , { ex := ⟨0, -1, -1⟩, state := .EMPTY } ]
      , write_idx := 1
      , read_idx := 0 }
  , number_of_vectors_parsed := 1
  , notify_count := 1 }

/-- Claim C3 counterexample: on a reachable live parser whose source returns
`length = 0`, the worker iteration does not terminate the stream: it
publishes the zero-length record (slot READY with length 0), increments the
parsed counter and leaves `parsing_done` false. -/
theorem zero_length_claim_counterexample :
    Reachable zeroLenStream true 2 zeroLenLive ∧
    main_parse_loop_iter zeroLenLive = .continued zeroLenPost ∧
    zeroLenPost.parsing_done = false ∧
    zeroLenPost.number_of_vectors_parsed = 1 ∧
    (zeroLenPost.examples_ring.slotAt 0).state = .READY ∧
    (zeroLenPost.examples_ring.slotAt 0).ex.length = 0 :=
  ⟨Reachable.step Reachable.base (Step.start (by decide)),
    by decide, by decide, by decide, by decide, by decide⟩

/-- Claim C3 (amended): a zero-length record makes `get_vector_and_label` and
`get_vector_only` report failure (return 0), but `main_parse_loop` ignores
that report: only a negative length terminates, so the zero-length record is
published via `copy_example`, the parsed counter is incremented, and parsing
continues with `parsing_done` still false. -/
theorem zero_length_record_published (st : PState) (slotEx : Example)
    (ring1 : ParseBuffer) (r : Example) (t : List Example)
    (hk : st.keep_running = true) (hp : st.parsing_done = false)
    (hfree : ParseBuffer.get_free_example st.examples_ring = some (slotEx, ring1))
    (hsrc : st.input_source = r :: t) (hlen : r.length = 0) :
    (get_vector_and_label st).1 = 0 ∧
    (get_vector_only st).1 = 0 ∧
    main_parse_loop_iter st =
      .continued { st with
        examples_ring := ParseBuffer.copy_example ring1
          ⟨r.fv, 0, if st.example_type = .E_LABELLED then r.label else slotEx.label⟩
      , input_source := t
      , number_of_vectors_parsed := st.number_of_vectors_parsed + 1
      , notify_count := st.notify_count + 1 } := by
  refine ⟨by simp [get_vector_and_label, read_from_source, hsrc, hlen],
    by simp [get_vector_only, read_from_source, hsrc, hlen], ?_⟩
  cases hty : st.example_type with
  | E_LABELLED =>
    simp [main_parse_loop_iter, hk, hp, hfree, main_parse_loop_read, hty,
      get_vector_and_label, read_from_source, hsrc, main_parse_loop_tail, hlen]
  | E_UNLABELLED =>
    simp [main_parse_loop_iter, hk, hp, hfree, main_parse_loop_read, hty,
      get_vector_only, read_from_source, hsrc, main_parse_loop_tail, hlen]

/-- Witness for the amended C3 at the concrete zero-length stream. -/
theorem zero_length_record_published_witness :
    (get_vector_and_label zeroLenLive).1 = 0 ∧
    (get_vector_only zeroLenLive).1 = 0 ∧
    main_parse_loop_iter zeroLenLive = .continued zeroLenPost := by
  have h := zero_length_record_published zeroLenLive ⟨0, -1, -1⟩ zeroLenRing1
    ⟨1, 0, 5⟩ [] (by decide) (by decide) (by decide) (by decide) (by decide)
  exact ⟨h.1, h.2.1, by rw [h.2.2]; decide⟩

/-- Claim C4 (the code violates it): on a reachable parser whose worker is
live (`parsing_done` false), `is_running` is false, so a second
`start_parser` raises no error and spawns a second worker thread. -/
theorem double_start_spawns_second_worker :
    Reachable demoStream true 2 demoLive ∧
    demoLive.parsing_done = false ∧
    demoLive.thread_spawns = 1 ∧
    is_running demoLive = false ∧
    startParser demoLive = .ok { demoLive with thread_spawns := 2 } :=
  ⟨Reachable.step Reachable.base (Step.start (by decide)),
    by decide, by decide, by decide, by decide⟩

/-- Claim C5 (the code violates it): after `exit_parser` clears
`keep_running`, `get_next_example` does not return 0: the while loop is
skipped (or exited after a wakeup) and the post-loop `fv = ex->fv` runs with
an `ex` no `break` ever assigned — undefined behaviour on the path that
returns 1.  The aborted state is reachable. -/
theorem next_after_abort_not_zero :
    Reachable demoStream true 2 (exitParser demoLive) ∧
    (exitParser demoLive).keep_running = false ∧
    get_next_example 5 (exitParser demoLive) =
      .undefinedBehavior (exitParser demoLive) ∧
    get_next_example_nolabel 5 (exitParser demoLive) =
      .undefinedBehavior (exitParser demoLive) :=
  ⟨Reachable.step (Reachable.step Reachable.base (Step.start (by decide)))
      Step.cancel,
    by decide, by decide, by decide⟩

/-- Claim C6: a worker iteration whose read reports a negative length sets
`parsing_done` under the lock, signals the state condition once, and exits
the loop; the claimed slot is not published — the parsed counter is untouched
(absent from the update), the only ring change is the WRITING claim mark, and
the write cursor does not move. -/
theorem worker_eof_exits (st : PState) (slotEx : Example) (ring1 : ParseBuffer)
    (hk : st.keep_running = true) (hp : st.parsing_done = false)
    (hfree : ParseBuffer.get_free_example st.examples_ring = some (slotEx, ring1))
    (hlen : (read_from_source st.input_source).1.length < 0) :
    main_parse_loop_iter st =
      .exited { st with
        examples_ring := ring1
      , input_source := (read_from_source st.input_source).2
      , parsing_done := true
      , notify_count := st.notify_count + 1 } ∧
    ring1 = st.examples_ring.setSlot st.examples_ring.write_idx
      { st.examples_ring.slotAt st.examples_ring.write_idx with state := .WRITING } ∧
    ring1.write_idx = st.examples_ring.write_idx := by
  refine ⟨?_, (get_free_example_some hfree).2.2.1, (get_free_example_some hfree).2.2.2⟩
  cases hty : st.example_type with
  | E_LABELLED =>
    cases hsrc : st.input_source with
    | nil =>
      simp [main_parse_loop_iter, hk, hp, hfree, main_parse_loop_read, hty,
        get_vector_and_label, read_from_source, hsrc, main_parse_loop_tail]
    | cons r t =>
      have hr : r.length < 0 := by simpa [read_from_source, hsrc] using hlen
      simp [main_parse_loop_iter, hk, hp, hfree, main_parse_loop_read, hty,
        get_vector_and_label, read_from_source, hsrc, main_parse_loop_tail, hr]
  | E_UNLABELLED =>
    cases hsrc : st.input_source with
    | nil =>
      simp [main_parse_loop_iter, hk, hp, hfree, main_parse_loop_read, hty,
        get_vector_only, read_from_source, hsrc, main_parse_loop_tail]
    | cons r t =>
      have hr : r.length < 0 := by simpa [read_from_source, hsrc] using hlen
      simp [main_parse_loop_iter, hk, hp, hfree, main_parse_loop_read, hty,
        get_vector_only, read_from_source, hsrc, main_parse_loop_tail, hr]

/-- A labelled stream that signals end-of-stream immediately. -/
def eofStream : List Example := [⟨2, -1, 4⟩]

/-- The parser over `eofStream` with a live worker. -/
def eofLive : PState :=
  { InputParser.init InputParser.new eofStream true 2 with
    keep_running := true, thread_joinable := true, thread_spawns := 1 }

/-- The ring of `eofLive` after the worker claims its free slot. -/
def eofRing1 : ParseBuffer :=
  { capacity := 2
  , slots := [ { ex := ⟨0, -1, -1⟩, state := .WRITING }
             , { ex := ⟨0, -1, -1⟩, state := .EMPTY } ]
  , write_idx := 0
  , read_idx := 0 }

/-- Witness for C6 at the concrete immediate-EOF stream. -/
theorem worker_eof_exits_witness :
    main_parse_loop_iter eofLive =
      .exited { eofLive with
        examples_ring := eofRing1
      , input_source := []
      , parsing_done := true
      , notify_count := eofLive.notify_count + 1 } ∧
    eofRing1 = eofLive.examples_ring.setSlot eofLive.examples_ring.write_idx
      { eofLive.examples_ring.slotAt eofLive.examples_ring.write_idx with
        state := .WRITING } ∧
    eofRing1.write_idx = eofLive.examples_ring.write_idx := by
  have h := worker_eof_exits eofLive ⟨0, -1, -1⟩ eofRing1
    (by decide) (by decide) (by decide) (by decide)
  exact ⟨by rw [h.1]; decide, h.2.1, h.2.2⟩

/-- Claim C7: at every reachable state of a run the counters satisfy
`0 ≤ read_count ≤ parsed_count ≤ Nsource`, and no operation of a run
decreases either counter. -/
theorem counters_monotone_and_bounded (s0 : List Example) (lab : Bool)
    (size : Nat) (st st' : PState) (hst : Reachable s0 lab size st) :
    (0 ≤ st.number_of_vectors_read ∧
      st.number_of_vectors_read ≤ st.number_of_vectors_parsed ∧
      st.number_of_vectors_parsed ≤ Nsource s0) ∧
    (Step st st' →
      st.number_of_vectors_parsed ≤ st'.number_of_vectors_parsed ∧
      st.number_of_vectors_read ≤ st'.number_of_vectors_read) := by
  obtain ⟨i1, i2, i3, -⟩ := reachable_counterInv hst
  exact ⟨⟨i1, i2, i3⟩,
    fun hstep => ⟨(step_effects hstep).1, (step_effects hstep).2.1⟩⟩

/-- Witness for C7 at the freshly initialized parser over `demoStream`. -/
theorem counters_monotone_and_bounded_witness :
    (0 ≤ demoInit.number_of_vectors_read ∧
      demoInit.number_of_vectors_read ≤ demoInit.number_of_vectors_parsed ∧
      demoInit.number_of_vectors_parsed ≤ Nsource demoStream) ∧
    (Step demoInit demoInit →
      demoInit.number_of_vectors_parsed ≤ demoInit.number_of_vectors_parsed ∧
      demoInit.number_of_vectors_read ≤ demoInit.number_of_vectors_read) :=
  counters_monotone_and_bounded demoStream true 2 demoInit demoInit Reachable.base

/-- Claim C8: the two-output `get_next_example` returns the same code, the
same vector and length outputs and the same final state as the three-output
labelled one, with the label output discarded. -/
theorem gne_nolabel_refines (fuel : Nat) (st : PState) :
    (∀ c fv len lbl st', get_next_example fuel st = .ret c fv len lbl st' →
      get_next_example_nolabel fuel st = .ret c fv len st') ∧
    (∀ st', get_next_example fuel st = .undefinedBehavior st' →
      get_next_example_nolabel fuel st = .undefinedBehavior st') ∧
    (∀ st', get_next_example fuel st = .waiting st' →
      get_next_example_nolabel fuel st = .waiting st') := by
  refine ⟨?_, ?_, ?_⟩
  · intro c fv len lbl st' h
    simp [get_next_example_nolabel, h, drop_label]
  · intro st' h
    simp [get_next_example_nolabel, h, drop_label]
  · intro st' h
    simp [get_next_example_nolabel, h, drop_label]

/-- Witness for C8: one concrete call of each overload agrees. -/
theorem gne_nolabel_refines_witness :
    get_next_example_nolabel 1 demoLive = .waiting demoLive :=
  (gne_nolabel_refines 1 demoLive).2.2 demoLive (by decide)

/-- Claim C9: `end_parser` joins only a joinable thread handle: with no live
handle it is the identity, it is idempotent, it is a no-op after
`exit_parser` (which already joined), and it never changes any parser state
other than consuming the handle. -/
theorem endParser_noop (st : PState) :
    (st.thread_joinable = false → endParser st = st) ∧
    endParser (endParser st) = endParser st ∧
    endParser (exitParser st) = exitParser st ∧
    (endParser st).parsing_done = st.parsing_done ∧
    (endParser st).reading_done = st.reading_done ∧
    (endParser st).number_of_vectors_parsed = st.number_of_vectors_parsed ∧
    (endParser st).number_of_vectors_read = st.number_of_vectors_read ∧
    (endParser st).keep_running = st.keep_running ∧
    (endParser st).input_source = st.input_source ∧
    (endParser st).examples_ring = st.examples_ring ∧
    (endParser st).free_after_release = st.free_after_release := by
  by_cases hj : st.thread_joinable = true <;>
    refine ⟨?_, ?_, ?_, ?_, ?_, ?_, ?_, ?_, ?_, ?_, ?_⟩ <;>
      simp [endParser, exitParser, hj]

/-- Witness for C9: on the freshly initialized parser (no thread ever
started) `end_parser` is the identity. -/
theorem endParser_noop_witness : endParser demoInit = demoInit :=
  (endParser_noop demoInit).1 (by decide)

/-- Claim C10: `init` unconditionally resets `free_after_release` to true,
silently discarding any earlier `set_free_vector_after_release`; the setter
persists only when invoked after `init`. -/
theorem init_overwrites_free_flag (st : PState) (input_file : List Example)
    (lab b : Bool) (size : Nat) :
    (InputParser.init (set_free_vector_after_release st b)
        input_file lab size).free_after_release = true ∧
    (InputParser.init st input_file lab size).free_after_release = true ∧
    (set_free_vector_after_release (InputParser.init st input_file lab size)
        b).free_after_release = b :=
  ⟨rfl, rfl, rfl⟩
